import Mathlib

/-!
Verification development for the Spark Job Orchestrator specification and for
the `SparkEmrContainersRuntime` construct of the aws-data-solutions-framework
repository.

The orchestrator itself (Run State Machine, Poll Scheduler, Result Classifier,
Run Ledger) is described by the specification; only its generated API
documentation is present among the source files, so the orchestrator
definitions below are modelled from the specification's words.  The
`SparkEmrContainersRuntime` definitions at the end of the file are embedded
from `src/framework/src/processing/spark-runtime/emr-containers/emr-eks-cluster.ts`.
-/

/-- Modelled from the spec: the `state` field of a `RunLedgerEntry`, §3:
one of Pending, Submitted, Monitoring, Retrying, Succeeded, Failed,
Cancelled, TimedOut. -/
inductive RunState
  | Pending
  | Submitted
  | Monitoring
  | Retrying
  | Succeeded
  | Failed
  | Cancelled
  | TimedOut
deriving DecidableEq, Repr

/-- Modelled from the spec: `{Succeeded, Failed, Cancelled, TimedOut}` are the
terminal states (§4.4). -/
def RunState.isTerminal : RunState → Bool
  | .Succeeded => true
  | .Failed => true
  | .Cancelled => true
  | .TimedOut => true
  | _ => false

/-- Rank of a state in the per-attempt progression used to express the
monotonicity invariant of §3 (Pending before Submitted before Monitoring
before Retrying before any terminal state). -/
def stateRank : RunState → Nat
  | .Pending => 0
  | .Submitted => 1
  | .Monitoring => 2
  | .Retrying => 3
  | _ => 4

/-- Modelled from the spec: the four-member outcome taxonomy of `PollOutcome`
(§3): `kind : Running | Succeeded | RetryableFailure | TerminalFailure`. -/
inductive OutcomeKind
  | Running
  | Succeeded
  | RetryableFailure
  | TerminalFailure
deriving DecidableEq, Repr

/-- Modelled from the spec: `PollOutcome` (§3), produced by the Result
Classifier per poll: kind, backend-native status string, optional message. -/
structure PollOutcome where
  kind : OutcomeKind
  nativeStatus : String
  message : Option String
deriving DecidableEq, Repr

/-- Modelled from the spec: the retry policy part of `JobSpecification` (§3);
only `maxAttempts` is observable by the state machine's decisions. -/
structure RetryPolicy where
  maxAttempts : Nat
deriving DecidableEq, Repr

/-- Modelled from the spec: `JobSpecification` (§3), restricted to the fields
the Run State Machine reads (retry policy and execution timeout). -/
structure JobSpecification where
  retryPolicy : RetryPolicy
  executionTimeout : Nat
deriving DecidableEq, Repr

/-- Modelled from the spec: `RunLedgerEntry` (§3). -/
structure RunLedgerEntry where
  runId : Nat
  backendRunToken : Option Nat
  state : RunState
  attempt : Nat
  submittedAt : Option Nat
  lastPolledAt : Option Nat
  terminalAt : Option Nat
  lastError : Option PollOutcome
deriving DecidableEq, Repr

/-- Modelled from the spec: result of the Backend Adapter's `submit` call
(§4.1): a backend run token on success, `SubmissionError` on synchronous
rejection. -/
inductive SubmitResult
  | ok (token : Nat)
  | error
deriving DecidableEq, Repr

/-- Modelled from the spec: the events driving the Run State Machine (§4.4):
submit results, poll scheduling, classified poll outcomes, retry backoff
expiry, the Poll Scheduler's timeout-expiry detection and external cancel
requests (the Bool records whether the adapter's best-effort cancel call
succeeded). -/
inductive Event
  | submit (r : SubmitResult) (now : Nat)
  | schedulePoll
  | poll (o : PollOutcome) (now : Nat)
  | backoff (token : Nat) (now : Nat)
  | timeoutCheck (now : Nat)
  | cancelReq (adapterOk : Bool) (now : Nat)
deriving DecidableEq, Repr

/-- Side effects a transition of the Run State Machine requests from its
collaborators: a backend submit, re-arming the Poll Scheduler, or a
best-effort backend cancel. -/
inductive Effect
  | submitJob
  | armPoll
  | cancelBackend
deriving DecidableEq, Repr

/-- Result of one transition: the updated ledger entry plus requested
effects. -/
structure StepResult where
  entry : RunLedgerEntry
  effects : List Effect
deriving DecidableEq, Repr

/-- Modelled from the spec: the Run State Machine's transition function
(§4.4), including the §8 boundary rules: a `RetryableFailure` with
`attempt == maxAttempts` goes to `Failed`, and elapsed time equal to
`executionTimeout` is treated as exceeded (inclusive boundary).  A ledger
entry in a terminal state is immutable (§3). -/
def step (spec : JobSpecification) (ev : Event) (e : RunLedgerEntry) : StepResult :=
  if e.state.isTerminal then ⟨e, []⟩ else
  match ev with
  | .submit r now =>
    if e.state = .Pending then
      match r with
      | .ok t =>
        ⟨{ e with
            state := .Submitted
            backendRunToken := some t
            submittedAt := some now }, [.submitJob]⟩
      | .error =>
        ⟨{ e with
            state := .Failed
            terminalAt := some now
            lastError := some ⟨.TerminalFailure, "SUBMISSION_ERROR", none⟩ }, [.submitJob]⟩
    else ⟨e, []⟩
  | .schedulePoll =>
    if e.state = .Submitted then
      ⟨{ e with state := .Monitoring }, [.armPoll]⟩
    else ⟨e, []⟩
  | .poll o now =>
    if e.state = .Monitoring then
      match o.kind with
      | .Running => ⟨{ e with lastPolledAt := some now }, [.armPoll]⟩
      | .Succeeded =>
        ⟨{ e with
            state := .Succeeded
            lastPolledAt := some now
            terminalAt := some now }, []⟩
      | .TerminalFailure =>
        ⟨{ e with
            state := .Failed
            lastPolledAt := some now
            terminalAt := some now
            lastError := some o }, []⟩
      | .RetryableFailure =>
        if e.attempt < spec.retryPolicy.maxAttempts then
          ⟨{ e with
              state := .Retrying
              lastPolledAt := some now
              lastError := some o }, []⟩
        else
          ⟨{ e with
              state := .Failed
              lastPolledAt := some now
              terminalAt := some now
              lastError := some o }, []⟩
    else ⟨e, []⟩
  | .backoff t now =>
    if e.state = .Retrying then
      ⟨{ e with
          state := .Submitted
          attempt := e.attempt + 1
          backendRunToken := some t
          submittedAt := some now }, [.submitJob]⟩
    else ⟨e, []⟩
  | .timeoutCheck now =>
    if e.state = .Monitoring then
      match e.submittedAt with
      | some t0 =>
        if t0 + spec.executionTimeout ≤ now then
          ⟨{ e with state := .TimedOut, terminalAt := some now }, [.cancelBackend]⟩
        else ⟨e, []⟩
      | none => ⟨e, []⟩
    else ⟨e, []⟩
  | .cancelReq _ now =>
    ⟨{ e with state := .Cancelled, terminalAt := some now }, [.cancelBackend]⟩

/-- Modelled from the spec: the initial ledger entry persisted by the Run
State Machine when a run is started (§2, §3): initial state `Pending`,
1-based attempt counter, no backend run token yet. -/
def initialEntry (rid : Nat) : RunLedgerEntry :=
  { runId := rid, backendRunToken := none, state := .Pending, attempt := 1,
    submittedAt := none, lastPolledAt := none, terminalAt := none, lastError := none }

/-- Modelled from the spec: the Job Execution Backend collaborator (§6) seen
through one run, as the fixed sequence of backend responses of §8's
round-trip property: the result of the first (and only spontaneous) submit
call, and the classified outcome of the i-th describe call of each attempt.
Submissions from `Retrying` always restart the job (§4.4 has no failure edge
on re-submission). -/
structure Backend where
  firstSubmit : SubmitResult
  pollRes : Nat → Nat → OutcomeKind

/-- State of the per-run driver: the ledger entry plus the index of the next
describe call within the current attempt. -/
structure DriveState where
  entry : RunLedgerEntry
  pollIdx : Nat

/-- Modelled from the spec: the control flow of §2 driving one run
sequentially: submit, schedule the first poll, poll to a verdict, retry via
backoff, stop at a terminal state. -/
def driveStep (spec : JobSpecification) (b : Backend) (s : DriveState) : DriveState :=
  match s.entry.state with
  | .Pending => ⟨(step spec (.submit b.firstSubmit 0) s.entry).entry, 0⟩
  | .Submitted => ⟨(step spec .schedulePoll s.entry).entry, 0⟩
  | .Monitoring =>
    ⟨(step spec (.poll ⟨b.pollRes s.entry.attempt s.pollIdx, "", none⟩ 0) s.entry).entry,
      s.pollIdx + 1⟩
  | .Retrying => ⟨(step spec (.backoff (s.entry.attempt + 1) 0) s.entry).entry, 0⟩
  | _ => s

/-- Iterated driver. -/
def driveN (spec : JobSpecification) (b : Backend) : Nat → DriveState → DriveState
  | 0, s => s
  | n + 1, s => driveN spec b n (driveStep spec b s)

/-- Contribution of a driver step to the count of submit attempts: the
`Pending` step invokes the first submit, every `Retrying` step re-submits. -/
def submitFlag (s : RunState) : Nat :=
  match s with
  | .Pending => 1
  | .Retrying => 1
  | _ => 0

/-- Number of submit calls issued during the first `n` driver steps. -/
def submitCount (spec : JobSpecification) (b : Backend) : Nat → DriveState → Nat
  | 0, _ => 0
  | n + 1, s => submitFlag s.entry.state + submitCount spec b n (driveStep spec b s)

/-- Observable key of a driver state: run state, attempt counter, poll index.
The driver's future behaviour depends only on this key. -/
def driveKey (s : DriveState) : RunState × Nat × Nat :=
  (s.entry.state, s.entry.attempt, s.pollIdx)

/-- Abstract driver on keys; mirrors `driveStep` exactly. -/
def absStep (spec : JobSpecification) (b : Backend) :
    RunState × Nat × Nat → RunState × Nat × Nat
  | (.Pending, a, _) =>
    match b.firstSubmit with
    | .ok _ => (.Submitted, a, 0)
    | .error => (.Failed, a, 0)
  | (.Submitted, a, _) => (.Monitoring, a, 0)
  | (.Monitoring, a, p) =>
    match b.pollRes a p with
    | .Running => (.Monitoring, a, p + 1)
    | .Succeeded => (.Succeeded, a, p + 1)
    | .TerminalFailure => (.Failed, a, p + 1)
    | .RetryableFailure =>
      if a < spec.retryPolicy.maxAttempts then (.Retrying, a, p + 1) else (.Failed, a, p + 1)
  | (.Retrying, a, _) => (.Submitted, a + 1, 0)
  | t => t

/-- Iterated abstract driver. -/
def absN (spec : JobSpecification) (b : Backend) : Nat → RunState × Nat × Nat → RunState × Nat × Nat
  | 0, t => t
  | n + 1, t => absN spec b n (absStep spec b t)

/-- Submit calls issued during the first `n` abstract steps. -/
def absCount (spec : JobSpecification) (b : Backend) : Nat → RunState × Nat × Nat → Nat
  | 0, _ => 0
  | n + 1, t => submitFlag t.1 + absCount spec b n (absStep spec b t)

theorem driveStep_key (spec : JobSpecification) (b : Backend) (s : DriveState) :
    driveKey (driveStep spec b s) = absStep spec b (driveKey s) := by
  obtain ⟨⟨rid, tok, st, att, sa, lp, ta, le⟩, p⟩ := s
  cases st
  case Pending =>
    cases h : b.firstSubmit <;>
      simp [driveStep, driveKey, step, absStep, RunState.isTerminal, h]
  case Monitoring =>
    cases h : b.pollRes att p <;>
      simp [driveStep, driveKey, step, absStep, RunState.isTerminal, h]
    by_cases hc : att < spec.retryPolicy.maxAttempts <;> simp [hc]
  all_goals simp [driveStep, driveKey, step, absStep, RunState.isTerminal]

theorem driveN_key (spec : JobSpecification) (b : Backend) (n : Nat) (s : DriveState) :
    driveKey (driveN spec b n s) = absN spec b n (driveKey s) := by
  induction n generalizing s with
  | zero => rfl
  | succ n ih =>
    simp only [driveN, absN, ih, driveStep_key]

theorem submitCount_abs (spec : JobSpecification) (b : Backend) (n : Nat) (s : DriveState) :
    submitCount spec b n s = absCount spec b n (driveKey s) := by
  induction n generalizing s with
  | zero => rfl
  | succ n ih =>
    simp only [submitCount, absCount, ih, driveStep_key]
    rfl

theorem absStep_terminal (spec : JobSpecification) (b : Backend)
    (t : RunState × Nat × Nat) (h : t.1.isTerminal = true) :
    absStep spec b t = t := by
  obtain ⟨st, a, p⟩ := t
  cases st <;> simp_all [RunState.isTerminal, absStep]

theorem absN_terminal (spec : JobSpecification) (b : Backend) (n : Nat)
    (t : RunState × Nat × Nat) (h : t.1.isTerminal = true) :
    absN spec b n t = t := by
  induction n with
  | zero => rfl
  | succ n ih => simp only [absN, absStep_terminal spec b t h, ih]

theorem absN_add (spec : JobSpecification) (b : Backend) (m n : Nat)
    (t : RunState × Nat × Nat) :
    absN spec b (m + n) t = absN spec b n (absN spec b m t) := by
  induction m generalizing t with
  | zero => simp only [Nat.zero_add, absN]
  | succ m ih =>
    have : m + 1 + n = (m + n) + 1 := by omega
    rw [this]
    simp only [absN, ih]

theorem absCount_add (spec : JobSpecification) (b : Backend) (m n : Nat)
    (t : RunState × Nat × Nat) :
    absCount spec b (m + n) t = absCount spec b m t + absCount spec b n (absN spec b m t) := by
  induction m generalizing t with
  | zero => simp [absCount, absN]
  | succ m ih =>
    have : m + 1 + n = (m + n) + 1 := by omega
    rw [this]
    simp only [absCount, absN, ih]
    omega

theorem absCount_terminal (spec : JobSpecification) (b : Backend) (n : Nat)
    (t : RunState × Nat × Nat) (h : t.1.isTerminal = true) :
    absCount spec b n t = 0 := by
  induction n with
  | zero => rfl
  | succ n ih =>
    have hflag : submitFlag t.1 = 0 := by
      obtain ⟨st, a, p⟩ := t
      cases st <;> simp_all [RunState.isTerminal, submitFlag]
    simp only [absCount, absStep_terminal spec b t h, hflag, ih, Nat.zero_add]


/-- The abstract driver can reach a point whose run state is `T`. -/
def ReachT (spec : JobSpecification) (b : Backend) (t : RunState × Nat × Nat)
    (T : RunState) : Prop :=
  ∃ F, (absN spec b F t).1 = T

theorem reach_forward (spec : JobSpecification) (b : Backend)
    (t : RunState × Nat × Nat) (T : RunState) (hT : T.isTerminal = true)
    (h : ReachT spec b t T) : ReachT spec b (absStep spec b t) T := by
  obtain ⟨F, hF⟩ := h
  cases F with
  | zero =>
    have ht : t.1 = T := hF
    have hterm : t.1.isTerminal = true := by rw [ht]; exact hT
    exact ⟨0, by simp only [absN]; rw [absStep_terminal spec b t hterm]; exact ht⟩
  | succ F => exact ⟨F, hF⟩

theorem reach_back (spec : JobSpecification) (b : Backend)
    (t : RunState × Nat × Nat) (T : RunState)
    (h : ReachT spec b (absStep spec b t) T) : ReachT spec b t T := by
  obtain ⟨F, hF⟩ := h
  exact ⟨F + 1, by simpa [absN_add spec b 1 F t, absN] using hF⟩

theorem reach_back_many (spec : JobSpecification) (b : Backend) (m : Nat)
    (t : RunState × Nat × Nat) (T : RunState)
    (h : ReachT spec b (absN spec b m t) T) : ReachT spec b t T := by
  obtain ⟨F, hF⟩ := h
  exact ⟨m + F, by rw [absN_add spec b m F t]; exact hF⟩

theorem reach_terminal_eq (spec : JobSpecification) (b : Backend)
    (t : RunState × Nat × Nat) (T : RunState)
    (hterm : t.1.isTerminal = true) (h : ReachT spec b t T) : t.1 = T := by
  obtain ⟨F, hF⟩ := h
  rw [absN_terminal spec b F t hterm] at hF
  exact hF

/-- Invariant of the abstract trajectory started from a fresh run: `Pending`
only at the very start, a `Monitoring` point has seen only `Running` polls of
its attempt so far, and a `Retrying` point has a retryable verdict for its
attempt together with spare attempts. -/
def trajInv (spec : JobSpecification) (b : Backend) : RunState × Nat × Nat → Prop
  | (.Pending, a, p) => a = 1 ∧ p = 0
  | (.Monitoring, a, p) => ∀ i, i < p → b.pollRes a i = .Running
  | (.Retrying, a, _) =>
    a < spec.retryPolicy.maxAttempts ∧
      ∃ j, (∀ i, i < j → b.pollRes a i = .Running) ∧ b.pollRes a j = .RetryableFailure
  | _ => True

theorem trajInv_step (spec : JobSpecification) (b : Backend)
    (t : RunState × Nat × Nat) (h : trajInv spec b t) :
    trajInv spec b (absStep spec b t) := by
  obtain ⟨st, a, p⟩ := t
  cases st
  case Pending =>
    cases hs : b.firstSubmit <;> simp [absStep, trajInv, hs]
  case Submitted =>
    simp [absStep, trajInv]
  case Monitoring =>
    cases hp : b.pollRes a p
    case Running =>
      simp only [absStep, hp, trajInv]
      intro i hi
      rcases Nat.lt_succ_iff_lt_or_eq.mp hi with hlt | heq
      · exact h i hlt
      · rw [heq]; exact hp
    case Succeeded => simp [absStep, hp, trajInv]
    case TerminalFailure => simp [absStep, hp, trajInv]
    case RetryableFailure =>
      by_cases hc : a < spec.retryPolicy.maxAttempts
      · simp only [absStep, hp, if_pos hc, trajInv]
        exact ⟨hc, p, h, hp⟩
      · simp [absStep, hp, if_neg hc, trajInv]
  case Retrying =>
    simp [absStep, trajInv]
  all_goals simp [absStep, trajInv]

theorem trajInv_absN (spec : JobSpecification) (b : Backend) (n : Nat)
    (t : RunState × Nat × Nat) (h : trajInv spec b t) :
    trajInv spec b (absN spec b n t) := by
  induction n generalizing t with
  | zero => exact h
  | succ n ih => exact ih _ (trajInv_step spec b t h)

/-- Skipping a prefix of `Running` polls within one attempt. -/
theorem abs_run_skip (spec : JobSpecification) (b : Backend) (a : Nat) :
    ∀ d q, (∀ i, q ≤ i → i < q + d → b.pollRes a i = .Running) →
    absN spec b d (.Monitoring, a, q) = (.Monitoring, a, q + d) := by
  intro d
  induction d with
  | zero => intro q _; simp [absN]
  | succ d ih =>
    intro q hq
    have h0 : b.pollRes a q = .Running := hq q (Nat.le_refl q) (by omega)
    have : absStep spec b (.Monitoring, a, q) = (.Monitoring, a, q + 1) := by
      simp [absStep, h0]
    simp only [absN, this]
    have := ih (q + 1) (fun i h1 h2 => hq i (by omega) (by omega))
    rw [this]
    have harith : q + 1 + d = q + (d + 1) := by omega
    rw [harith]

/-- Modelled from the spec: crash recovery (§4.4): on restart every ledger
entry not in a terminal state is re-entered at `Monitoring` against its
existing `backendRunToken`; submission is never retried implicitly. -/
def recover (e : RunLedgerEntry) : RunLedgerEntry :=
  if e.state.isTerminal then e else { e with state := .Monitoring }

theorem driveN_state_eq_abs (spec : JobSpecification) (b : Backend) (n : Nat) (s : DriveState) :
    (driveN spec b n s).entry.state = (absN spec b n (driveKey s)).1 := by
  have := driveN_key spec b n s
  calc (driveN spec b n s).entry.state = (driveKey (driveN spec b n s)).1 := rfl
    _ = (absN spec b n (driveKey s)).1 := by rw [this]

/-- `C3`: for every run and every fixed sequence of backend responses
(`Backend`), persisting the ledger entry, crashing at any non-terminal point
`k`, reloading and resuming via `recover` (re-entering `Monitoring` against
the existing token, without re-submitting) reaches the same terminal state
`T` as the uninterrupted execution.  The hypothesis `hreject` states the §4.1
realism condition that describing a run whose submission was synchronously
rejected yields `NotFound`, classified as `TerminalFailure`. -/
theorem crash_resume_roundTrip (spec : JobSpecification) (b : Backend) (rid F0 k : Nat)
    (T : RunState)
    (hreject : b.firstSubmit = SubmitResult.error →
      ∀ a i, b.pollRes a i = OutcomeKind.TerminalFailure)
    (hT : (driveN spec b F0 ⟨initialEntry rid, 0⟩).entry.state = T)
    (hTerm : T.isTerminal = true)
    (hk : (driveN spec b k ⟨initialEntry rid, 0⟩).entry.state.isTerminal = false) :
    ∃ F, (driveN spec b F
      ⟨recover (driveN spec b k ⟨initialEntry rid, 0⟩).entry, 0⟩).entry.state = T := by
  have hkey0 : driveKey (⟨initialEntry rid, 0⟩ : DriveState) = (RunState.Pending, 1, 0) := rfl
  have hF0 := driveN_key spec b F0 ⟨initialEntry rid, 0⟩
  have hkk := driveN_key spec b k ⟨initialEntry rid, 0⟩
  rw [hkey0] at hF0 hkk
  have hTabs : (absN spec b F0 (RunState.Pending, 1, 0)).1 = T := by
    rw [← hF0]; exact hT
  have hkabs : (absN spec b k (RunState.Pending, 1, 0)).1.isTerminal = false := by
    rw [← hkk]; exact hk
  have hatt : (driveN spec b k ⟨initialEntry rid, 0⟩).entry.attempt
      = (absN spec b k (RunState.Pending, 1, 0)).2.1 := by
    rw [← hkk]
    rfl
  have hkeyR : driveKey ⟨recover (driveN spec b k ⟨initialEntry rid, 0⟩).entry, 0⟩
      = (RunState.Monitoring, (absN spec b k (RunState.Pending, 1, 0)).2.1, 0) := by
    rw [← hatt]
    simp [driveKey, recover, hk]
  suffices h : ReachT spec b
      (RunState.Monitoring, (absN spec b k (RunState.Pending, 1, 0)).2.1, 0) T by
    obtain ⟨F, hF⟩ := h
    refine ⟨F, ?_⟩
    rw [driveN_state_eq_abs, hkeyR]
    exact hF
  have hReach : ReachT spec b (absN spec b k (RunState.Pending, 1, 0)) T := by
    by_cases hkF : k ≤ F0
    · refine ⟨F0 - k, ?_⟩
      have hsum : k + (F0 - k) = F0 := by omega
      rw [← absN_add, hsum]
      exact hTabs
    · exfalso
      have hterm0 : (absN spec b F0 (RunState.Pending, 1, 0)).1.isTerminal = true := by
        rw [hTabs]; exact hTerm
      have heq : absN spec b k (RunState.Pending, 1, 0)
          = absN spec b F0 (RunState.Pending, 1, 0) := by
        have hsplit : F0 + (k - F0) = k := by omega
        rw [← hsplit, absN_add]
        exact absN_terminal spec b (k - F0) _ hterm0
      rw [heq, hterm0] at hkabs
      exact Bool.noConfusion hkabs
  have hJ : trajInv spec b (absN spec b k (RunState.Pending, 1, 0)) :=
    trajInv_absN spec b k _ ⟨rfl, rfl⟩
  generalize htk : absN spec b k (RunState.Pending, 1, 0) = tk at hReach hJ hkabs ⊢
  obtain ⟨σ, a, p⟩ := tk
  show ReachT spec b (RunState.Monitoring, a, 0) T
  cases σ
  case Succeeded => simp [RunState.isTerminal] at hkabs
  case Failed => simp [RunState.isTerminal] at hkabs
  case Cancelled => simp [RunState.isTerminal] at hkabs
  case TimedOut => simp [RunState.isTerminal] at hkabs
  case Pending =>
    cases hs : b.firstSubmit with
    | ok tkn =>
      have h1 : absStep spec b (RunState.Pending, a, p) = (RunState.Submitted, a, 0) := by
        simp [absStep, hs]
      have h2 : absStep spec b (RunState.Submitted, a, 0) = (RunState.Monitoring, a, 0) := by
        simp [absStep]
      have r1 := reach_forward spec b _ T hTerm hReach
      rw [h1] at r1
      have r2 := reach_forward spec b _ T hTerm r1
      rw [h2] at r2
      exact r2
    | error =>
      have h1 : absStep spec b (RunState.Pending, a, p) = (RunState.Failed, a, 0) := by
        simp [absStep, hs]
      have r1 := reach_forward spec b _ T hTerm hReach
      rw [h1] at r1
      have hTF : (RunState.Failed, a, 0).1 = T :=
        reach_terminal_eq spec b (RunState.Failed, a, 0) T rfl r1
      refine ⟨1, ?_⟩
      simp only [absN]
      have h2 : absStep spec b (RunState.Monitoring, a, 0) = (RunState.Failed, a, 1) := by
        simp [absStep, hreject hs a 0]
      rw [h2]
      exact hTF
  case Submitted =>
    have h1 : absStep spec b (RunState.Submitted, a, p) = (RunState.Monitoring, a, 0) := by
      simp [absStep]
    have r1 := reach_forward spec b _ T hTerm hReach
    rw [h1] at r1
    exact r1
  case Monitoring =>
    simp only [trajInv] at hJ
    have hskip : absN spec b p (RunState.Monitoring, a, 0) = (RunState.Monitoring, a, p) := by
      have := abs_run_skip spec b a p 0 (fun i h1 h2 => hJ i (by omega))
      simpa using this
    apply reach_back_many spec b p
    rw [hskip]
    exact hReach
  case Retrying =>
    simp only [trajInv] at hJ
    obtain ⟨hc, j, hrun, hj⟩ := hJ
    have h1 : absStep spec b (RunState.Retrying, a, p) = (RunState.Submitted, a + 1, 0) := by
      simp [absStep]
    have r1 := reach_forward spec b _ T hTerm hReach
    rw [h1] at r1
    have h2 : absStep spec b (RunState.Retrying, a, j + 1) = (RunState.Submitted, a + 1, 0) := by
      simp [absStep]
    have r2 : ReachT spec b (RunState.Retrying, a, j + 1) T := by
      apply reach_back
      rw [h2]; exact r1
    have h3 : absStep spec b (RunState.Monitoring, a, j) = (RunState.Retrying, a, j + 1) := by
      simp [absStep, hj, hc]
    have r3 : ReachT spec b (RunState.Monitoring, a, j) T := by
      apply reach_back
      rw [h3]; exact r2
    have hskip : absN spec b j (RunState.Monitoring, a, 0) = (RunState.Monitoring, a, j) := by
      have := abs_run_skip spec b a j 0 (fun i h1 h2 => hrun i (by omega))
      simpa using this
    apply reach_back_many spec b j
    rw [hskip]
    exact r3

theorem step_terminal_frozen (spec : JobSpecification) (ev : Event) (e : RunLedgerEntry)
    (h : e.state.isTerminal = true) : step spec ev e = ⟨e, []⟩ := by
  simp [step, h]

theorem step_attempt_mono (spec : JobSpecification) (ev : Event) (e : RunLedgerEntry) :
    e.attempt ≤ (step spec ev e).entry.attempt := by
  obtain ⟨rid, tok, st, att, sa, lp, ta, le⟩ := e
  rcases ev with r | _ | o | t | n | ok <;>
    (try obtain ⟨ok, ns, msg⟩ := o) <;>
    (try cases r) <;>
    (try cases ok) <;>
    (try cases sa) <;>
    cases st <;>
    simp [step, RunState.isTerminal] <;>
    (try split_ifs) <;>
    simp

theorem step_rank_mono (spec : JobSpecification) (ev : Event) (e : RunLedgerEntry)
    (h : (step spec ev e).entry.attempt = e.attempt) :
    stateRank e.state ≤ stateRank (step spec ev e).entry.state := by
  obtain ⟨rid, tok, st, att, sa, lp, ta, le⟩ := e
  rcases ev with r | _ | o | t | n | ok <;>
    (try obtain ⟨ok, ns, msg⟩ := o) <;>
    (try cases r) <;>
    (try cases ok) <;>
    (try cases sa) <;>
    cases st <;>
    simp_all [step, RunState.isTerminal, stateRank] <;>
    (try split_ifs) <;>
    (try simp_all [stateRank])

theorem step_no_revisit (spec : JobSpecification) (ev : Event) (e : RunLedgerEntry)
    (h : (step spec ev e).entry.state ≠ e.state) :
    stateRank e.state < stateRank (step spec ev e).entry.state ∨
      (step spec ev e).entry.attempt = e.attempt + 1 := by
  obtain ⟨rid, tok, st, att, sa, lp, ta, le⟩ := e
  rcases ev with r | _ | o | t | n | ok <;>
    (try obtain ⟨ok, ns, msg⟩ := o) <;>
    (try cases r) <;>
    (try cases ok) <;>
    (try cases sa) <;>
    cases st <;>
    simp_all [step, RunState.isTerminal, stateRank] <;>
    (try split_ifs) <;>
    (try simp_all [stateRank])

theorem driveStep_terminal (spec : JobSpecification) (b : Backend) (s : DriveState)
    (h : s.entry.state.isTerminal = true) : driveStep spec b s = s := by
  obtain ⟨⟨rid, tok, st, att, sa, lp, ta, le⟩, p⟩ := s
  cases st <;> simp_all [RunState.isTerminal, driveStep]

theorem driveN_add (spec : JobSpecification) (b : Backend) (m n : Nat) (s : DriveState) :
    driveN spec b (m + n) s = driveN spec b n (driveN spec b m s) := by
  induction m generalizing s with
  | zero => simp only [Nat.zero_add, driveN]
  | succ m ih =>
    have : m + 1 + n = (m + n) + 1 := by omega
    rw [this]
    simp only [driveN, ih]

theorem driveN_terminal (spec : JobSpecification) (b : Backend) (n : Nat) (s : DriveState)
    (h : s.entry.state.isTerminal = true) : driveN spec b n s = s := by
  induction n with
  | zero => rfl
  | succ n ih => simp only [driveN, driveStep_terminal spec b s h, ih]

/-- `C2`: ledger invariants.  A ledger entry in a terminal state is immutable
(its fields never change again and no effect is emitted); the attempt counter
never decreases; within one attempt the state progression is monotonic, and
any state change within the same attempt strictly advances the progression
(so no state is revisited within an attempt); the terminal states are exactly
the four `Succeeded`, `Failed`, `Cancelled`, `TimedOut` (mutually exclusive
constructors); and a driven run that has reached a terminal state stays at
that very entry forever, so exactly one terminal state is reached. -/
theorem runLedger_invariants (spec : JobSpecification) (ev : Event) (e : RunLedgerEntry) :
    (e.state.isTerminal = true → step spec ev e = ⟨e, []⟩) ∧
    e.attempt ≤ (step spec ev e).entry.attempt ∧
    ((step spec ev e).entry.attempt = e.attempt →
      stateRank e.state ≤ stateRank (step spec ev e).entry.state) ∧
    ((step spec ev e).entry.state ≠ e.state →
      stateRank e.state < stateRank (step spec ev e).entry.state ∨
        (step spec ev e).entry.attempt = e.attempt + 1) ∧
    (e.state.isTerminal = true ↔
      (e.state = RunState.Succeeded ∨ e.state = RunState.Failed ∨
        e.state = RunState.Cancelled ∨ e.state = RunState.TimedOut)) ∧
    (∀ (b : Backend) (s : DriveState) (F G : Nat),
      (driveN spec b F s).entry.state.isTerminal = true →
      driveN spec b (F + G) s = driveN spec b F s) := by
  refine ⟨step_terminal_frozen spec ev e, step_attempt_mono spec ev e,
    step_rank_mono spec ev e, step_no_revisit spec ev e, ?_, ?_⟩
  · cases e.state <;> simp [RunState.isTerminal]
  · intro b s F G hterm
    rw [driveN_add]
    exact driveN_terminal spec b G _ hterm

theorem retry_cycle (spec : JobSpecification) (b : Backend)
    (hb : ∀ a i, b.pollRes a i = OutcomeKind.RetryableFailure)
    (a p : Nat) (hc : a < spec.retryPolicy.maxAttempts) :
    absN spec b 3 (RunState.Monitoring, a, p) = (RunState.Monitoring, a + 1, 0) ∧
    absCount spec b 3 (RunState.Monitoring, a, p) = 1 := by
  constructor <;> simp [absN, absCount, absStep, hb, hc, submitFlag]

theorem retry_loop (spec : JobSpecification) (b : Backend)
    (hb : ∀ a i, b.pollRes a i = OutcomeKind.RetryableFailure) :
    ∀ d a p, a + d = spec.retryPolicy.maxAttempts →
    (absN spec b (3 * d + 1) (RunState.Monitoring, a, p)).1 = RunState.Failed ∧
    absCount spec b (3 * d + 1) (RunState.Monitoring, a, p) = d := by
  intro d
  induction d with
  | zero =>
    intro a p ha
    have hnc : ¬ a < spec.retryPolicy.maxAttempts := by omega
    constructor <;> simp [absN, absCount, absStep, hb, hnc, submitFlag]
  | succ d ih =>
    intro a p ha
    have hc : a < spec.retryPolicy.maxAttempts := by omega
    have hcyc := retry_cycle spec b hb a p hc
    have hsum : 3 * (d + 1) + 1 = 3 + (3 * d + 1) := by omega
    rw [hsum]
    constructor
    · rw [absN_add, hcyc.1]
      exact (ih (a + 1) 0 (by omega)).1
    · rw [absCount_add, hcyc.2, hcyc.1]
      have := (ih (a + 1) 0 (by omega)).2
      omega

/-- `C1`: with `retryPolicy.maxAttempts = N` (`maxRetries`), a run whose polls
always classify as `RetryableFailure` reaches the terminal state `Failed`
after exactly `N` submit attempts; an `N+1`-th submit never happens (the
submit count is bounded by `N` over any horizon); and a `RetryableFailure`
poll arriving when `attempt` equals `maxAttempts` transitions to `Failed`,
never to `Retrying`. -/
theorem retryExhaustion (spec : JobSpecification) (b : Backend) (rid N tkn : Nat)
    (hN : spec.retryPolicy.maxAttempts = N) (h1 : 1 ≤ N)
    (hs : b.firstSubmit = SubmitResult.ok tkn)
    (hb : ∀ a i, b.pollRes a i = OutcomeKind.RetryableFailure) :
    (driveN spec b (3 * N) ⟨initialEntry rid, 0⟩).entry.state = RunState.Failed ∧
    submitCount spec b (3 * N) ⟨initialEntry rid, 0⟩ = N ∧
    (∀ F, submitCount spec b F ⟨initialEntry rid, 0⟩ ≤ N) ∧
    (∀ (e : RunLedgerEntry) (o : PollOutcome) (now : Nat),
      e.state = RunState.Monitoring → e.attempt = spec.retryPolicy.maxAttempts →
      o.kind = OutcomeKind.RetryableFailure →
      (step spec (.poll o now) e).entry.state = RunState.Failed ∧
      (step spec (.poll o now) e).entry.state ≠ RunState.Retrying) := by
  have hkey0 : driveKey (⟨initialEntry rid, 0⟩ : DriveState) = (RunState.Pending, 1, 0) := rfl
  have hinit2 : absN spec b 2 (RunState.Pending, 1, 0) = (RunState.Monitoring, 1, 0) := by
    simp [absN, absStep, hs]
  have hcnt2 : absCount spec b 2 (RunState.Pending, 1, 0) = 1 := by
    simp [absCount, absStep, hs, submitFlag]
  have hloop := retry_loop spec b hb (N - 1) 1 0 (by omega)
  have hsplit : 3 * N = 2 + (3 * (N - 1) + 1) := by omega
  have habsN : (absN spec b (3 * N) (RunState.Pending, 1, 0)).1 = RunState.Failed := by
    rw [hsplit, absN_add, hinit2]
    exact hloop.1
  have habsC : absCount spec b (3 * N) (RunState.Pending, 1, 0) = N := by
    rw [hsplit, absCount_add, hinit2, hcnt2]
    have := hloop.2
    omega
  refine ⟨?_, ?_, ?_, ?_⟩
  · rw [driveN_state_eq_abs, hkey0]
    exact habsN
  · rw [submitCount_abs, hkey0]
    exact habsC
  · intro F
    rw [submitCount_abs, hkey0]
    by_cases hF : F ≤ 3 * N
    · have hdec : 3 * N = F + (3 * N - F) := by omega
      have := absCount_add spec b F (3 * N - F) (RunState.Pending, 1, 0)
      rw [← hdec, habsC] at this
      omega
    · have hdec : F = 3 * N + (F - 3 * N) := by omega
      rw [hdec, absCount_add, habsC]
      have hterm : (absN spec b (3 * N) (RunState.Pending, 1, 0)).1.isTerminal = true := by
        rw [habsN]; rfl
      rw [absCount_terminal spec b (F - 3 * N) _ hterm]
      omega
  · intro e o now hstate hatt hkind
    have hnc : ¬ e.attempt < spec.retryPolicy.maxAttempts := by omega
    constructor <;> simp [step, hstate, hkind, hnc, RunState.isTerminal]

/-- `C4`: a `SubmissionError` while in `Pending` moves the run directly to the
terminal state `Failed`; the resulting entry is frozen, so no further submit
attempt is ever made for that run regardless of `maxAttempts`, and a driven
run whose submission is rejected ends at `Failed` having issued at most one
submit call. -/
theorem submissionError_noRetry (spec : JobSpecification) (e : RunLedgerEntry) (now : Nat)
    (hp : e.state = RunState.Pending) :
    (step spec (.submit .error now) e).entry.state = RunState.Failed ∧
    (step spec (.submit .error now) e).entry.state.isTerminal = true ∧
    (∀ ev, step spec ev (step spec (.submit .error now) e).entry
      = ⟨(step spec (.submit .error now) e).entry, []⟩) ∧
    (∀ (b : Backend) (rid F : Nat), b.firstSubmit = SubmitResult.error →
      (1 ≤ F → (driveN spec b F ⟨initialEntry rid, 0⟩).entry.state = RunState.Failed) ∧
      submitCount spec b F ⟨initialEntry rid, 0⟩ ≤ 1) := by
  have hfail : (step spec (.submit .error now) e).entry.state = RunState.Failed := by
    simp [step, hp, RunState.isTerminal]
  refine ⟨hfail, by rw [hfail]; rfl, ?_, ?_⟩
  · intro ev
    apply step_terminal_frozen
    rw [hfail]
    rfl
  · intro b rid F hberr
    have hkey0 : driveKey (⟨initialEntry rid, 0⟩ : DriveState) = (RunState.Pending, 1, 0) := rfl
    have habs1 : absN spec b 1 (RunState.Pending, 1, 0) = (RunState.Failed, 1, 0) := by
      simp [absN, absStep, hberr]
    constructor
    · intro hF
      rw [driveN_state_eq_abs, hkey0]
      have hdec : F = 1 + (F - 1) := by omega
      rw [hdec, absN_add, habs1, absN_terminal spec b (F - 1) (RunState.Failed, 1, 0) rfl]
    · rw [submitCount_abs, hkey0]
      cases F with
      | zero => simp [absCount]
      | succ F =>
        have hdec : F + 1 = 1 + F := by omega
        rw [hdec, absCount_add, habs1, absCount_terminal spec b F (RunState.Failed, 1, 0) rfl]
        simp [absCount, submitFlag]

/-- `C5`: in `Monitoring`, an elapsed time since the current attempt's
`submittedAt` exactly equal to `executionTimeout` is treated as exceeded
(inclusive boundary): the run transitions to the terminal state `TimedOut`
and the Backend Adapter's cancel operation is invoked. -/
theorem executionTimeout_inclusiveBoundary (spec : JobSpecification) (e : RunLedgerEntry)
    (t0 : Nat) (hm : e.state = RunState.Monitoring) (hsa : e.submittedAt = some t0) :
    (step spec (.timeoutCheck (t0 + spec.executionTimeout)) e).entry.state = RunState.TimedOut ∧
    (step spec (.timeoutCheck (t0 + spec.executionTimeout)) e).entry.state.isTerminal = true ∧
    Effect.cancelBackend ∈ (step spec (.timeoutCheck (t0 + spec.executionTimeout)) e).effects := by
  refine ⟨?_, ?_, ?_⟩ <;> simp [step, hm, hsa, RunState.isTerminal]

/-- `C6`: an external cancel request delivered in any non-terminal state
invokes the adapter's best-effort `cancel`, moves the ledger to the terminal
state `Cancelled` regardless of whether the adapter's cancel call succeeded
(the transition is independent of the adapter outcome), and the next
scheduled poll is skipped: a poll delivered to the cancelled entry leaves it
unchanged and produces no effect. -/
theorem cancelRun_unconditional (spec : JobSpecification) (e : RunLedgerEntry)
    (adapterOk : Bool) (now : Nat) (hnt : e.state.isTerminal = false) :
    (step spec (.cancelReq adapterOk now) e).entry.state = RunState.Cancelled ∧
    Effect.cancelBackend ∈ (step spec (.cancelReq adapterOk now) e).effects ∧
    step spec (.cancelReq adapterOk now) e = step spec (.cancelReq (!adapterOk) now) e ∧
    (∀ (o : PollOutcome) (now2 : Nat),
      step spec (.poll o now2) (step spec (.cancelReq adapterOk now) e).entry
        = ⟨(step spec (.cancelReq adapterOk now) e).entry, []⟩) := by
  refine ⟨by simp [step, hnt], by simp [step, hnt], by simp [step, hnt], ?_⟩
  intro o now2
  apply step_terminal_frozen
  have hc : (step spec (.cancelReq adapterOk now) e).entry.state = RunState.Cancelled := by
    simp [step, hnt]
  rw [hc]
  rfl

/-- Modelled from the spec: `BackendKind`, the two example backends of §2 and
§4.2: a serverless batch engine and a containerized batch engine. -/
inductive BackendKind
  | serverless
  | containers
deriving DecidableEq, Repr

/-- Modelled from the spec: the per-backend status-vocabulary table of §4.2:
one backend reports `SUCCESS`/`FAILED`/`CANCELLED`/`RUNNING`, the other a
richer set including `SUBMITTED`/`PENDING`/`SCHEDULED`; infrastructure-side
failures (capacity, transient API faults, container placement failures) map
to `RetryableFailure`, job-code failures to `TerminalFailure`. -/
def statusTable : BackendKind → List (String × OutcomeKind)
  | .serverless =>
    [("SUCCESS", .Succeeded), ("RUNNING", .Running),
     ("FAILED", .TerminalFailure), ("CANCELLED", .TerminalFailure)]
  | .containers =>
    [("COMPLETED", .Succeeded), ("SUBMITTED", .Running), ("PENDING", .Running),
     ("SCHEDULED", .Running), ("RUNNING", .Running),
     ("FAILED", .TerminalFailure), ("CANCELLED", .TerminalFailure),
     ("CAPACITY_ERROR", .RetryableFailure), ("INTERNAL_ERROR", .RetryableFailure),
     ("POD_PLACEMENT_FAILURE", .RetryableFailure)]

/-- Table lookup for the classifier. -/
def lookupStatus : List (String × OutcomeKind) → String → Option OutcomeKind
  | [], _ => none
  | (s, o) :: rest, q => if s = q then some o else lookupStatus rest q

/-- Modelled from the spec: the pure function
`classify(nativeStatus, backendKind) -> PollOutcome` of §4.2; a status the
table does not recognize (including a run the backend has lost, reported as
NotFound, §4.1) is resolved to `TerminalFailure` before leaving the Result
Classifier (§7). -/
def classify (nativeStatus : String) (backendKind : BackendKind) : PollOutcome :=
  match lookupStatus (statusTable backendKind) nativeStatus with
  | some o => ⟨o, nativeStatus, none⟩
  | none => ⟨.TerminalFailure, nativeStatus, some "unclassified native status"⟩

/-- `C7`: `classify` is a pure total function: any two invocations on the same
pair of native status and backend kind return equal `PollOutcome` values, and
the returned kind is always one of the four taxonomy members, so the state
machine never receives an unclassified error. -/
theorem classify_pure_total (s : String) (k : BackendKind) :
    classify s k = classify s k ∧
    ((classify s k).kind = OutcomeKind.Running ∨
      (classify s k).kind = OutcomeKind.Succeeded ∨
      (classify s k).kind = OutcomeKind.RetryableFailure ∨
      (classify s k).kind = OutcomeKind.TerminalFailure) := by
  refine ⟨rfl, ?_⟩
  cases h : (classify s k).kind <;> simp

/-- Modelled from the spec: state of the Poll Scheduler for one run (§5):
whether a describe call is in flight, how many describe calls were issued and
how many outcomes were classified and folded into the ledger. -/
structure SchedState where
  inFlight : Bool
  issued : Nat
  folded : Nat
deriving DecidableEq, Repr

/-- Events of the Poll Scheduler: a "time to poll" tick, and the completion
of classification and folding of the previous describe outcome. -/
inductive SchedEvent
  | timeToPoll
  | outcomeFolded
deriving DecidableEq, Repr

/-- Modelled from the spec: the Poll Scheduler's per-run describe discipline
(§5): a tick issues a describe call only when none is outstanding; folding
the classified outcome into the ledger releases the slot. -/
def schedStep (s : SchedState) : SchedEvent → SchedState
  | .timeToPoll =>
    if s.inFlight then s else { s with inFlight := true, issued := s.issued + 1 }
  | .outcomeFolded =>
    if s.inFlight then { s with inFlight := false, folded := s.folded + 1 } else s

/-- Scheduler run over a list of events. -/
def schedRun : SchedState → List SchedEvent → SchedState
  | s, [] => s
  | s, ev :: rest => schedRun (schedStep s ev) rest

/-- Initial scheduler state: nothing in flight, nothing issued or folded. -/
def initialSched : SchedState := ⟨false, 0, 0⟩

theorem schedRun_inv : ∀ (evs : List SchedEvent) (s : SchedState),
    s.issued = s.folded + (if s.inFlight then 1 else 0) →
    (schedRun s evs).issued
      = (schedRun s evs).folded + (if (schedRun s evs).inFlight then 1 else 0) := by
  intro evs
  induction evs with
  | nil => intro s h; exact h
  | cons ev rest ih =>
    intro s h
    simp only [schedRun]
    apply ih
    obtain ⟨fl, i, f⟩ := s
    cases ev <;> cases fl <;> simp_all [schedStep]

/-- `C8`: within one run, describe polls are strictly sequential: after any
sequence of scheduler events from the initial state, the number of describe
calls issued never exceeds the number of outcomes already classified and
folded into the ledger by more than the one in-flight call — the scheduler
never issues a second describe for the same `backendRunToken` before the
previous one's outcome has been classified and folded. -/
theorem pollScheduler_sequential (evs : List SchedEvent) :
    (schedRun initialSched evs).folded ≤ (schedRun initialSched evs).issued ∧
    (schedRun initialSched evs).issued ≤ (schedRun initialSched evs).folded + 1 := by
  have h := schedRun_inv evs initialSched (by simp [initialSched])
  constructor <;> (split at h <;> omega)

/-- Configuration options of `SparkEmrContainersRuntimeProps`
(emr-eks-cluster.ts) observable by the claims: the optional EKS cluster name
and the optional `defaultNodes` flag.  `none` models an omitted (undefined)
property. -/
structure SparkEmrContainersRuntimeProps where
  eksClusterName : Option String
  defaultNodes : Option Bool
deriving DecidableEq, Repr

/-- `SparkEmrContainersRuntime.DEFAULT_CLUSTER_NAME` (emr-eks-cluster.ts,
line 182). -/
def DEFAULT_CLUSTER_NAME : String := "data-platform"

/-- The observable outcome of the private `SparkEmrContainersRuntime`
constructor (emr-eks-cluster.ts): the construct id it was registered under,
the cluster name (`props.eksClusterName ?? DEFAULT_CLUSTER_NAME`, line 245),
the `defaultNodes` field (`props.defaultNodes ?? true`, line 260), whether
`setDefaultKarpenterProvisioners` ran (`if (this.defaultNodes)`, line 324),
whether the pod-template upload block ran (`if (props.defaultNodes)`,
line 399) and the three default-config fields assigned only inside that
block (lines 411, 419, 428). -/
structure SparkEmrContainersRuntime where
  constructId : String
  clusterName : String
  defaultNodes : Bool
  karpenterProvisionersInstalled : Bool
  podTemplatesUploaded : Bool
  notebookDefaultConfig : Option String
  criticalDefaultConfig : Option String
  sharedDefaultConfig : Option String
deriving DecidableEq, Repr

/-- The `SparkEmrContainersRuntime` private constructor restricted to the
observable fields above.  `props.defaultNodes ?? true` is `getD true`; the
raw truthiness test `if (props.defaultNodes)` on an optional boolean is
`getD false` (undefined and false are falsy, true is truthy). -/
def constructRuntime (id : String) (props : SparkEmrContainersRuntimeProps) :
    SparkEmrContainersRuntime :=
  { constructId := id
    clusterName := props.eksClusterName.getD DEFAULT_CLUSTER_NAME
    defaultNodes := props.defaultNodes.getD true
    karpenterProvisionersInstalled := props.defaultNodes.getD true
    podTemplatesUploaded := props.defaultNodes.getD false
    notebookDefaultConfig :=
      if props.defaultNodes.getD false then some "notebook-pod-template-ready" else none
    criticalDefaultConfig :=
      if props.defaultNodes.getD false then some "critical" else none
    sharedDefaultConfig :=
      if props.defaultNodes.getD false then some "shared" else none }

/-- The construct id used by `getOrCreate` (emr-eks-cluster.ts, line 195):
`props.eksClusterName || DEFAULT_CLUSTER_NAME` — the JavaScript `||` falls
back to the default when the name is undefined or the empty string. -/
def getOrCreateId (props : SparkEmrContainersRuntimeProps) : String :=
  match props.eksClusterName with
  | some s => if s = "" then DEFAULT_CLUSTER_NAME else s
  | none => DEFAULT_CLUSTER_NAME

/-- `stack.node.tryFindChild(id)`: lookup of a registered child construct by
id in the stack's registry. -/
def tryFindChild : List (String × SparkEmrContainersRuntime) → String →
    Option SparkEmrContainersRuntime
  | [], _ => none
  | (key, inst) :: rest, id => if key = id then some inst else tryFindChild rest id

/-- `SparkEmrContainersRuntime.getOrCreate` (emr-eks-cluster.ts, lines
192-202): compute the id, return the existing child of the stack under that
id if any, otherwise construct a new instance and register it. -/
def getOrCreate (children : List (String × SparkEmrContainersRuntime))
    (props : SparkEmrContainersRuntimeProps) :
    SparkEmrContainersRuntime × List (String × SparkEmrContainersRuntime) :=
  let id := getOrCreateId props
  match tryFindChild children id with
  | some inst => (inst, children)
  | none =>
    let inst := constructRuntime id props
    (inst, children ++ [(id, inst)])

theorem tryFindChild_append_self
    (children : List (String × SparkEmrContainersRuntime)) (id : String)
    (inst : SparkEmrContainersRuntime) (h : tryFindChild children id = none) :
    tryFindChild (children ++ [(id, inst)]) id = some inst := by
  induction children with
  | nil => simp [tryFindChild]
  | cons c rest ih =>
    obtain ⟨key, v⟩ := c
    by_cases hk : key = id
    · simp [tryFindChild, hk] at h
    · simp only [tryFindChild, List.cons_append, if_neg hk] at h ⊢
      exact ih h

/-- `C9`: `getOrCreate` is idempotent per stack and key: when two calls
compute the same construct id (same `eksClusterName`, or both omitted), the
second call returns the very instance produced by the first call and leaves
the stack's registry unchanged — even when the second call passes different
configuration; both calls omitting `eksClusterName` use the default key
`data-platform`, and construction itself is a function of the id and the
configuration. -/
theorem getOrCreate_idempotent
    (children : List (String × SparkEmrContainersRuntime))
    (p1 p2 : SparkEmrContainersRuntimeProps)
    (hkey : getOrCreateId p1 = getOrCreateId p2) :
    (getOrCreate (getOrCreate children p1).2 p2).1 = (getOrCreate children p1).1 ∧
    (getOrCreate (getOrCreate children p1).2 p2).2 = (getOrCreate children p1).2 ∧
    (∀ d, getOrCreateId ⟨none, d⟩ = DEFAULT_CLUSTER_NAME) ∧
    constructRuntime (getOrCreateId p1) p1 = constructRuntime (getOrCreateId p1) p1 := by
  refine ⟨?_, ?_, fun d => rfl, rfl⟩ <;>
  · cases hfind : tryFindChild children (getOrCreateId p1) with
    | some inst =>
      simp [getOrCreate, hfind, ← hkey]
    | none =>
      simp [getOrCreate, hfind, ← hkey,
        tryFindChild_append_self children (getOrCreateId p1) _ hfind]

/-- `C10`: the two `defaultNodes` branches of the constructor disagree when
`props.defaultNodes` is omitted: the default Karpenter provisioners are
installed (`props.defaultNodes ?? true`) while the pod-template upload block
(guarded by the raw truthy test `if (props.defaultNodes)`) does not run, so
no pod templates are uploaded and `notebookDefaultConfig`,
`criticalDefaultConfig` and `sharedDefaultConfig` all stay undefined; the
two effects occur together exactly when `props.defaultNodes` is explicitly
true. -/
theorem defaultNodes_branches_disagree (id : String)
    (p : SparkEmrContainersRuntimeProps) :
    (p.defaultNodes = none →
      (constructRuntime id p).karpenterProvisionersInstalled = true ∧
      (constructRuntime id p).podTemplatesUploaded = false ∧
      (constructRuntime id p).notebookDefaultConfig = none ∧
      (constructRuntime id p).criticalDefaultConfig = none ∧
      (constructRuntime id p).sharedDefaultConfig = none) ∧
    ((constructRuntime id p).karpenterProvisionersInstalled = true ∧
        (constructRuntime id p).podTemplatesUploaded = true ↔
      p.defaultNodes = some true) := by
  rcases p with ⟨name, dn⟩
  rcases dn with _ | b
  · simp [constructRuntime]
  · cases b <;> simp [constructRuntime]

/-- Concrete job specification used by the witnesses: two attempts, a
30-unit execution timeout. -/
def wSpec : JobSpecification := ⟨⟨2⟩, 30⟩

/-- Concrete backend whose polls always classify as retryable. -/
def wRetryBackend : Backend := ⟨SubmitResult.ok 7, fun _ _ => OutcomeKind.RetryableFailure⟩

/-- Concrete backend that accepts the submission, reports `Running` once and
then `Succeeded`. -/
def wOkBackend : Backend :=
  ⟨SubmitResult.ok 7, fun _ i => if i = 0 then OutcomeKind.Running else OutcomeKind.Succeeded⟩

/-- Concrete monitoring-state ledger entry used by the witnesses. -/
def wMonEntry : RunLedgerEntry :=
  { runId := 0, backendRunToken := some 7, state := RunState.Monitoring, attempt := 1,
    submittedAt := some 10, lastPolledAt := none, terminalAt := none, lastError := none }

theorem retryExhaustion_witness :
    (driveN wSpec wRetryBackend (3 * 2) ⟨initialEntry 0, 0⟩).entry.state = RunState.Failed ∧
    submitCount wSpec wRetryBackend (3 * 2) ⟨initialEntry 0, 0⟩ = 2 ∧
    (∀ F, submitCount wSpec wRetryBackend F ⟨initialEntry 0, 0⟩ ≤ 2) ∧
    (∀ (e : RunLedgerEntry) (o : PollOutcome) (now : Nat),
      e.state = RunState.Monitoring → e.attempt = wSpec.retryPolicy.maxAttempts →
      o.kind = OutcomeKind.RetryableFailure →
      (step wSpec (.poll o now) e).entry.state = RunState.Failed ∧
      (step wSpec (.poll o now) e).entry.state ≠ RunState.Retrying) :=
  retryExhaustion wSpec wRetryBackend 0 2 7 rfl (by omega) rfl (fun _ _ => rfl)

theorem runLedger_invariants_witness :
    ((initialEntry 0).state.isTerminal = true →
      step wSpec .schedulePoll (initialEntry 0) = ⟨initialEntry 0, []⟩) ∧
    (initialEntry 0).attempt ≤ (step wSpec .schedulePoll (initialEntry 0)).entry.attempt ∧
    ((step wSpec .schedulePoll (initialEntry 0)).entry.attempt = (initialEntry 0).attempt →
      stateRank (initialEntry 0).state
        ≤ stateRank (step wSpec .schedulePoll (initialEntry 0)).entry.state) ∧
    ((step wSpec .schedulePoll (initialEntry 0)).entry.state ≠ (initialEntry 0).state →
      stateRank (initialEntry 0).state
          < stateRank (step wSpec .schedulePoll (initialEntry 0)).entry.state ∨
        (step wSpec .schedulePoll (initialEntry 0)).entry.attempt
          = (initialEntry 0).attempt + 1) ∧
    ((initialEntry 0).state.isTerminal = true ↔
      ((initialEntry 0).state = RunState.Succeeded ∨ (initialEntry 0).state = RunState.Failed ∨
        (initialEntry 0).state = RunState.Cancelled ∨
        (initialEntry 0).state = RunState.TimedOut)) ∧
    (∀ (b : Backend) (s : DriveState) (F G : Nat),
      (driveN wSpec b F s).entry.state.isTerminal = true →
      driveN wSpec b (F + G) s = driveN wSpec b F s) :=
  runLedger_invariants wSpec .schedulePoll (initialEntry 0)

theorem crash_resume_roundTrip_witness :
    ∃ F, (driveN wSpec wOkBackend F
      ⟨recover (driveN wSpec wOkBackend 2 ⟨initialEntry 0, 0⟩).entry, 0⟩).entry.state
      = RunState.Succeeded :=
  crash_resume_roundTrip wSpec wOkBackend 0 4 2 RunState.Succeeded
    (fun h => absurd h (by decide)) (by decide) (by decide) (by decide)

theorem submissionError_noRetry_witness :
    (step wSpec (.submit .error 5) (initialEntry 0)).entry.state = RunState.Failed ∧
    (step wSpec (.submit .error 5) (initialEntry 0)).entry.state.isTerminal = true ∧
    (∀ ev, step wSpec ev (step wSpec (.submit .error 5) (initialEntry 0)).entry
      = ⟨(step wSpec (.submit .error 5) (initialEntry 0)).entry, []⟩) ∧
    (∀ (b : Backend) (rid F : Nat), b.firstSubmit = SubmitResult.error →
      (1 ≤ F → (driveN wSpec b F ⟨initialEntry rid, 0⟩).entry.state = RunState.Failed) ∧
      submitCount wSpec b F ⟨initialEntry rid, 0⟩ ≤ 1) :=
  submissionError_noRetry wSpec (initialEntry 0) 5 rfl

theorem executionTimeout_inclusiveBoundary_witness :
    (step wSpec (.timeoutCheck (10 + wSpec.executionTimeout)) wMonEntry).entry.state
      = RunState.TimedOut ∧
    (step wSpec
        (.timeoutCheck (10 + wSpec.executionTimeout)) wMonEntry).entry.state.isTerminal
      = true ∧
    Effect.cancelBackend
      ∈ (step wSpec (.timeoutCheck (10 + wSpec.executionTimeout)) wMonEntry).effects :=
  executionTimeout_inclusiveBoundary wSpec wMonEntry 10 rfl rfl

theorem cancelRun_unconditional_witness :
    (step wSpec (.cancelReq true 12) wMonEntry).entry.state = RunState.Cancelled ∧
    Effect.cancelBackend ∈ (step wSpec (.cancelReq true 12) wMonEntry).effects ∧
    step wSpec (.cancelReq true 12) wMonEntry = step wSpec (.cancelReq (!true) 12) wMonEntry ∧
    (∀ (o : PollOutcome) (now2 : Nat),
      step wSpec (.poll o now2) (step wSpec (.cancelReq true 12) wMonEntry).entry
        = ⟨(step wSpec (.cancelReq true 12) wMonEntry).entry, []⟩) :=
  cancelRun_unconditional wSpec wMonEntry true 12 rfl

theorem getOrCreate_idempotent_witness :
    (getOrCreate (getOrCreate [] ⟨none, none⟩).2 ⟨none, some false⟩).1
      = (getOrCreate [] (⟨none, none⟩ : SparkEmrContainersRuntimeProps)).1 ∧
    (getOrCreate (getOrCreate [] ⟨none, none⟩).2 ⟨none, some false⟩).2
      = (getOrCreate [] (⟨none, none⟩ : SparkEmrContainersRuntimeProps)).2 ∧
    (∀ d, getOrCreateId ⟨none, d⟩ = DEFAULT_CLUSTER_NAME) ∧
    constructRuntime (getOrCreateId ⟨none, none⟩) ⟨none, none⟩
      = constructRuntime (getOrCreateId ⟨none, none⟩) ⟨none, none⟩ :=
  getOrCreate_idempotent [] ⟨none, none⟩ ⟨none, some false⟩ rfl

theorem defaultNodes_branches_disagree_witness :
    ((⟨none, none⟩ : SparkEmrContainersRuntimeProps).defaultNodes = none →
      (constructRuntime "data-platform" ⟨none, none⟩).karpenterProvisionersInstalled = true ∧
      (constructRuntime "data-platform" ⟨none, none⟩).podTemplatesUploaded = false ∧
      (constructRuntime "data-platform" ⟨none, none⟩).notebookDefaultConfig = none ∧
      (constructRuntime "data-platform" ⟨none, none⟩).criticalDefaultConfig = none ∧
      (constructRuntime "data-platform" ⟨none, none⟩).sharedDefaultConfig = none) ∧
    ((constructRuntime "data-platform" ⟨none, none⟩).karpenterProvisionersInstalled = true ∧
        (constructRuntime "data-platform" ⟨none, none⟩).podTemplatesUploaded = true ↔
      (⟨none, none⟩ : SparkEmrContainersRuntimeProps).defaultNodes = some true) :=
  defaultNodes_branches_disagree "data-platform" ⟨none, none⟩
